import Mathlib

/-!
# es_compression: the `stringFromJNI` native bridge

A shallow embedding of
`example/android_jniLibs_generate/app/src/main/cpp/native-lib.cpp`:

    Java_es_1compression_example_jniLibs_MainActivity_stringFromJNI(
            JNIEnv* env, jobject /* this */) {
        std::string hello = "Hello from C++";
        return env->NewStringUTF(hello.c_str());
    }

Bytes and UTF-16 code units are natural numbers.  A `const char*` is the list
of bytes found in memory from the pointer onwards.  The Java side (`JNIEnv`)
is explicit state: the string objects of the heap, the memory that is left,
the pending exception, and a log of the JNI functions that were called.
-/

namespace EsCompression

/-! ## Text encodings -/

/-- UTF-8 bytes of one code point, as a compiler stores it in a narrow string literal. -/
def utf8EncodeCodePoint (c : Nat) : List Nat :=
  if c < 0x80 then [c]
  else if c < 0x800 then [0xC0 + c / 64, 0x80 + c % 64]
  else if c < 0x10000 then [0xE0 + c / 4096, 0x80 + c / 64 % 64, 0x80 + c % 64]
  else [0xF0 + c / 262144, 0x80 + c / 4096 % 64, 0x80 + c / 64 % 64, 0x80 + c % 64]

/-- UTF-8 bytes of a text. -/
def utf8Encode (s : String) : List Nat :=
  (s.toList.map fun ch => utf8EncodeCodePoint ch.toNat).flatten

/-- UTF-16 code units of one code point (a surrogate pair above the basic plane). -/
def utf16EncodeCodePoint (c : Nat) : List Nat :=
  if c < 0x10000 then [c]
  else [0xD800 + (c - 0x10000) / 1024, 0xDC00 + (c - 0x10000) % 1024]

/-- UTF-16 code units of a list of code points. -/
def utf16OfCodePoints (cs : List Nat) : List Nat :=
  (cs.map utf16EncodeCodePoint).flatten

/-- UTF-16 code units of a text: the content of the `java.lang.String` holding that text. -/
def utf16Encode (s : String) : List Nat :=
  utf16OfCodePoints (s.toList.map Char.toNat)

/-- A continuation byte `10xxxxxx`. -/
def isCont (b : Nat) : Bool := 0x80 ≤ b && b < 0xC0

/-- The first code point of standard UTF-8 bytes (RFC 3629) and the bytes after
it; `none` when the bytes do not start with a well-formed sequence. -/
def utf8Head : List Nat → Option (Nat × List Nat)
  | [] => none
  | b0 :: rest =>
    if b0 < 0x80 then some (b0, rest)
    else if 0xC0 ≤ b0 ∧ b0 < 0xE0 then
      match rest with
      | b1 :: rest1 =>
        let c := (b0 % 32) * 64 + b1 % 64
        if isCont b1 ∧ 0x80 ≤ c then some (c, rest1) else none
      | _ => none
    else if 0xE0 ≤ b0 ∧ b0 < 0xF0 then
      match rest with
      | b1 :: b2 :: rest2 =>
        let c := (b0 % 16) * 4096 + (b1 % 64) * 64 + b2 % 64
        if isCont b1 ∧ isCont b2 ∧ 0x800 ≤ c ∧ ¬ (0xD800 ≤ c ∧ c < 0xE000) then some (c, rest2)
        else none
      | _ => none
    else if 0xF0 ≤ b0 ∧ b0 < 0xF8 then
      match rest with
      | b1 :: b2 :: b3 :: rest3 =>
        let c := (b0 % 8) * 262144 + (b1 % 64) * 4096 + (b2 % 64) * 64 + b3 % 64
        if isCont b1 ∧ isCont b2 ∧ isCont b3 ∧ 0x10000 ≤ c ∧ c < 0x110000 then some (c, rest3)
        else none
      | _ => none
    else none

/-- Decodes sequence after sequence; `fuel` bounds the number of sequences and
the length of the input is always enough. -/
def decodeUTF8Loop : Nat → List Nat → Option (List Nat)
  | _, [] => some []
  | 0, _ :: _ => none
  | fuel + 1, b :: bs =>
    match utf8Head (b :: bs) with
    | none => none
    | some (c, rest) => (decodeUTF8Loop fuel rest).map (c :: ·)

/-- Standard UTF-8 decoding of a byte sequence into code points; `none` when
the bytes are not well-formed UTF-8. -/
def decodeUTF8 (bs : List Nat) : Option (List Nat) := decodeUTF8Loop bs.length bs

/-- The first UTF-16 code unit of JNI modified UTF-8 bytes and the bytes after
it: one byte for U+0001..U+007F, two bytes for U+0000 and U+0080..U+07FF, three
bytes for U+0800..U+FFFF (surrogates included, so a supplementary character
takes six bytes); a zero byte and the four-byte form do not occur. -/
def modifiedUTF8Head : List Nat → Option (Nat × List Nat)
  | [] => none
  | b0 :: rest =>
    if 1 ≤ b0 ∧ b0 < 0x80 then some (b0, rest)
    else if 0xC0 ≤ b0 ∧ b0 < 0xE0 then
      match rest with
      | b1 :: rest1 =>
        let u := (b0 % 32) * 64 + b1 % 64
        if isCont b1 ∧ (u = 0 ∨ 0x80 ≤ u) then some (u, rest1) else none
      | _ => none
    else if 0xE0 ≤ b0 ∧ b0 < 0xF0 then
      match rest with
      | b1 :: b2 :: rest2 =>
        let u := (b0 % 16) * 4096 + (b1 % 64) * 64 + b2 % 64
        if isCont b1 ∧ isCont b2 ∧ 0x800 ≤ u then some (u, rest2) else none
      | _ => none
    else none

/-- Decodes sequence after sequence; `fuel` bounds the number of sequences and
the length of the input is always enough. -/
def decodeModifiedUTF8Loop : Nat → List Nat → Option (List Nat)
  | _, [] => some []
  | 0, _ :: _ => none
  | fuel + 1, b :: bs =>
    match modifiedUTF8Head (b :: bs) with
    | none => none
    | some (u, rest) => (decodeModifiedUTF8Loop fuel rest).map (u :: ·)

/-- Decoding of JNI modified UTF-8 into UTF-16 code units; `none` when the
bytes are not modified UTF-8. -/
def decodeModifiedUTF8 (bs : List Nat) : Option (List Nat) :=
  decodeModifiedUTF8Loop bs.length bs

/-! ## C strings and `std::string` -/

/-- The array a narrow string literal denotes: the UTF-8 bytes of its text and
the terminating zero byte. -/
def stringLiteral (s : String) : List Nat := utf8Encode s ++ [0]

/-- The characters of the C string at a pointer: the bytes before the first zero byte. -/
def cstrBytes (p : List Nat) : List Nat := p.takeWhile (· != 0)

/-- A `std::string`: its characters, the terminator left out. -/
structure StdString where
  chars : List Nat
  deriving DecidableEq, Repr

/-- The constructor `std::string(const char*)` of `<string>`: copies the characters of the
C string. -/
def StdString.ofCStr (p : List Nat) : StdString := ⟨cstrBytes p⟩

/-- The member `c_str()`: the characters followed by a zero byte. -/
def StdString.c_str (s : StdString) : List Nat := s.chars ++ [0]

/-! ## The JNI side -/

/-- A Java object reference (`jobject`): null, or the index of an object of the heap. -/
inductive jobject where
  | null
  | ref (id : Nat)
  deriving DecidableEq, Repr

/-- The type `jstring` is a `jobject` that refers to a `java.lang.String`. -/
abbrev jstring := jobject

/-- Exceptions a JNI function can leave pending. -/
inductive JThrowable where
  | OutOfMemoryError
  deriving DecidableEq, Repr

/-- One call through the JNI function table, with its argument. -/
inductive JNICall where
  | NewStringUTF (bytes : List Nat)
  deriving DecidableEq, Repr

/-- The execution context behind a `JNIEnv*`. -/
structure JNIEnv where
  /-- The `java.lang.String` objects allocated so far, as UTF-16 code units;
  a reference is an index into this list. -/
  heap : List (List Nat)
  /-- The memory that is left, counted in UTF-16 code units. -/
  freeUnits : Nat
  /-- The exception pending in this thread, if any. -/
  pending : Option JThrowable
  /-- The JNI functions called through this context so far, oldest first. -/
  trace : List JNICall
  deriving DecidableEq, Repr

/-- Whether the context has room for a string of `units` code units. -/
def JNIEnv.canAllocate (env : JNIEnv) (units : Nat) : Bool := decide (units ≤ env.freeUnits)

/-- The content of the string a reference points to. -/
def JNIEnv.stringContent (env : JNIEnv) : jstring → Option (List Nat)
  | .null => none
  | .ref id => env.heap[id]?

/-- Modelled from the spec: `JNIEnv::NewStringUTF` is declared in `jni.h`, which
is not among the sources; the spec calls it "allocating the return value" and
leaves its failures to "the boundary layer's own allocation behavior".  It
follows the JNI contract: the argument is a zero-terminated string in modified
UTF-8; a new `java.lang.String` with the decoded content is allocated and a
reference to it is returned; when memory runs out the result is null and an
`OutOfMemoryError` is left pending.  The outer `none` stands for an argument
that is not modified UTF-8, for which JNI defines no behaviour. -/
def JNIEnv.NewStringUTF (env : JNIEnv) (bytes : List Nat) : Option (jstring × JNIEnv) :=
  let logged := env.trace ++ [JNICall.NewStringUTF bytes]
  match decodeModifiedUTF8 (cstrBytes bytes) with
  | none => none
  | some units =>
    if env.canAllocate units.length then
      some (jobject.ref env.heap.length,
        { heap := env.heap ++ [units], freeUnits := env.freeUnits - units.length,
          pending := env.pending, trace := logged })
    else
      some (jobject.null,
        { heap := env.heap, freeUnits := env.freeUnits,
          pending := some JThrowable.OutOfMemoryError, trace := logged })

/-! ## The entry point -/

/-- The text of the literal on line 8 of `native-lib.cpp`. -/
def helloText : String := "Hello from C++"

/-- The native method `MainActivity.stringFromJNI` (lines 4-10 of `native-lib.cpp`):
builds the `std::string` `hello` from the literal and returns
`env->NewStringUTF(hello.c_str())`.  The second parameter is unnamed in the source. -/
def Java_es_1compression_example_jniLibs_MainActivity_stringFromJNI
    (env : JNIEnv) (_this : jobject) : Option (jstring × JNIEnv) :=
  let hello : StdString := StdString.ofCStr (stringLiteral helloText)
  env.NewStringUTF hello.c_str

/-- The short name the Java side uses for the entry point. -/
abbrev stringFromJNI := Java_es_1compression_example_jniLibs_MainActivity_stringFromJNI

/-- The string allocation of the call succeeds in `env`: there is room for the
Java string that holds the text of the literal. -/
def AllocationSucceeds (env : JNIEnv) : Prop :=
  env.canAllocate (utf16Encode helloText).length = true

instance (env : JNIEnv) : Decidable (AllocationSucceeds env) := by
  unfold AllocationSucceeds; infer_instance

/-- The fourteen bytes of the literal. -/
def helloBytes : List Nat := [72, 101, 108, 108, 111, 32, 102, 114, 111, 109, 32, 67, 43, 43]

/-- The words "the state after the call equals the state before it except for
the single newly allocated return string": `str` refers to one new object at the
end of the heap, the objects that were there are unchanged, the memory that is
left shrank by the size of the new object, and the pending exception is the
same.  The call log is an observation of the run and not part of the frame. -/
def DiffersOnlyByNewString (pre post : JNIEnv) (str : jstring) : Prop :=
  str = jobject.ref pre.heap.length ∧
  post.heap.length = pre.heap.length + 1 ∧
  post.heap.take pre.heap.length = pre.heap ∧
  post.freeUnits + (post.heap.drop pre.heap.length).flatten.length = pre.freeUnits ∧
  post.pending = pre.pending

instance (pre post : JNIEnv) (str : jstring) : Decidable (DiffersOnlyByNewString pre post str) := by
  unfold DiffersOnlyByNewString; infer_instance

/-! ## Sample contexts -/

/-- A context with one string on the heap and plenty of memory. -/
def roomyEnv : JNIEnv :=
  { heap := [[74, 78, 73]], freeUnits := 4096, pending := none, trace := [] }

/-- A fresh context with room for exactly fourteen code units. -/
def tightEnv : JNIEnv :=
  { heap := [], freeUnits := 14, pending := none, trace := [] }

/-- A context with room for thirteen code units only, one short of the string. -/
def fullEnv : JNIEnv :=
  { heap := [[74, 78, 73]], freeUnits := 13, pending := none, trace := [] }

/-- The context `fullEnv` after a failed `NewStringUTF` of the literal. -/
def fullEnvAfter : JNIEnv :=
  { heap := [[74, 78, 73]], freeUnits := 13, pending := some JThrowable.OutOfMemoryError,
    trace := [JNICall.NewStringUTF (helloBytes ++ [0])] }

theorem decodeModifiedUTF8Loop_ascii (bs : List Nat) (h : ∀ b ∈ bs, 1 ≤ b ∧ b ≤ 0x7F) :
    ∀ fuel, bs.length ≤ fuel → decodeModifiedUTF8Loop fuel bs = some bs := by
  induction bs with
  | nil => intro fuel _; cases fuel <;> rfl
  | cons b rest ih =>
    intro fuel hf
    have hb := h b (List.mem_cons_self b rest)
    have hlt : 1 ≤ b ∧ b < 0x80 := ⟨hb.1, by omega⟩
    cases fuel with
    | zero => simp at hf
    | succ n =>
      have hrest := ih (fun x hx => h x (List.mem_cons_of_mem b hx)) n
        (by simp at hf; omega)
      simp [decodeModifiedUTF8Loop, modifiedUTF8Head, hlt, hrest]

theorem decodeModifiedUTF8_ascii (bs : List Nat) (h : ∀ b ∈ bs, 1 ≤ b ∧ b ≤ 0x7F) :
    decodeModifiedUTF8 bs = some bs :=
  decodeModifiedUTF8Loop_ascii bs h bs.length (Nat.le_refl _)

theorem decodeUTF8Loop_ascii (bs : List Nat) (h : ∀ b ∈ bs, b ≤ 0x7F) :
    ∀ fuel, bs.length ≤ fuel → decodeUTF8Loop fuel bs = some bs := by
  induction bs with
  | nil => intro fuel _; cases fuel <;> rfl
  | cons b rest ih =>
    intro fuel hf
    have hb := h b (List.mem_cons_self b rest)
    have hlt : b < 0x80 := by omega
    cases fuel with
    | zero => simp at hf
    | succ n =>
      have hrest := ih (fun x hx => h x (List.mem_cons_of_mem b hx)) n
        (by simp at hf; omega)
      simp [decodeUTF8Loop, utf8Head, hlt, hrest]

theorem decodeUTF8_ascii (bs : List Nat) (h : ∀ b ∈ bs, b ≤ 0x7F) :
    decodeUTF8 bs = some bs :=
  decodeUTF8Loop_ascii bs h bs.length (Nat.le_refl _)

theorem utf16OfCodePoints_basic (cs : List Nat) (h : ∀ c ∈ cs, c < 0x10000) :
    utf16OfCodePoints cs = cs := by
  induction cs with
  | nil => rfl
  | cons c rest ih =>
    have hc := h c (List.mem_cons_self c rest)
    have hrest := ih (fun x hx => h x (List.mem_cons_of_mem c hx))
    unfold utf16OfCodePoints at hrest ⊢
    simp [utf16EncodeCodePoint, hc, hrest]

/-- On bytes in `0x01..0x7F` the two decodings give the same UTF-16 text, the bytes themselves. -/
theorem decode_agree_ascii (bs : List Nat) (h : ∀ b ∈ bs, 1 ≤ b ∧ b ≤ 0x7F) :
    decodeModifiedUTF8 bs = (decodeUTF8 bs).map utf16OfCodePoints ∧
      decodeModifiedUTF8 bs = some bs := by
  have h1 := decodeModifiedUTF8_ascii bs h
  have h2 := decodeUTF8_ascii bs (fun b hb => (h b hb).2)
  have h3 := utf16OfCodePoints_basic bs (fun b hb => by have := (h b hb).2; omega)
  simp [h1, h2, h3]

/-- The C string has no zero byte before its terminator, so reading it back gives all of it. -/
theorem cstrBytes_append_zero (bs : List Nat) (h : ∀ b ∈ bs, 1 ≤ b) :
    cstrBytes (bs ++ [0]) = bs := by
  induction bs with
  | nil => rfl
  | cons b rest ih =>
    have hb := h b (List.mem_cons_self b rest)
    have hrest := ih (fun x hx => h x (List.mem_cons_of_mem b hx))
    have hne : (b != 0) = true := by simp; omega
    unfold cstrBytes at hrest ⊢
    rw [List.cons_append, List.takeWhile_cons, hne, hrest]; rfl

theorem helloBytes_ascii : ∀ b ∈ helloBytes, 1 ≤ b ∧ b ≤ 0x7F := by decide

theorem utf8Encode_helloText : utf8Encode helloText = helloBytes := by decide

theorem utf16Encode_helloText : utf16Encode helloText = helloBytes := by decide

/-- The argument the entry point hands to `NewStringUTF`. -/
theorem hello_c_str :
    (StdString.ofCStr (stringLiteral helloText)).c_str = helloBytes ++ [0] := by
  have hz := cstrBytes_append_zero helloBytes (fun b hb => (helloBytes_ascii b hb).1)
  simp [StdString.ofCStr, StdString.c_str, stringLiteral, utf8Encode_helloText, hz]

/-! ## The entry point, evaluated -/

/-- The entry point is one `NewStringUTF` call on the fifteen bytes of the C string. -/
theorem stringFromJNI_is_NewStringUTF (env : JNIEnv) (this : jobject) :
    stringFromJNI env this = env.NewStringUTF (helloBytes ++ [0]) := by
  show env.NewStringUTF (StdString.ofCStr (stringLiteral helloText)).c_str = _
  rw [hello_c_str]

theorem stringFromJNI_of_room (env : JNIEnv) (this : jobject) (h : AllocationSucceeds env) :
    stringFromJNI env this = some (jobject.ref env.heap.length,
      { heap := env.heap ++ [helloBytes], freeUnits := env.freeUnits - 14,
        pending := env.pending, trace := env.trace ++ [JNICall.NewStringUTF (helloBytes ++ [0])] }) := by
  have hz := cstrBytes_append_zero helloBytes (fun b hb => (helloBytes_ascii b hb).1)
  have hd := decodeModifiedUTF8_ascii helloBytes helloBytes_ascii
  have hl : helloBytes.length = 14 := rfl
  have hc : env.canAllocate 14 = true := by
    have := h; unfold AllocationSucceeds at this
    rw [utf16Encode_helloText] at this; exact this
  rw [stringFromJNI_is_NewStringUTF]
  simp [JNIEnv.NewStringUTF, hz, hd, hl, hc]

theorem stringFromJNI_of_no_room (env : JNIEnv) (this : jobject) (h : ¬ AllocationSucceeds env) :
    stringFromJNI env this = some (jobject.null,
      { heap := env.heap, freeUnits := env.freeUnits,
        pending := some JThrowable.OutOfMemoryError,
        trace := env.trace ++ [JNICall.NewStringUTF (helloBytes ++ [0])] }) := by
  have hz := cstrBytes_append_zero helloBytes (fun b hb => (helloBytes_ascii b hb).1)
  have hd := decodeModifiedUTF8_ascii helloBytes helloBytes_ascii
  have hl : helloBytes.length = 14 := rfl
  have hc : env.canAllocate 14 = false := by
    have := h; unfold AllocationSucceeds at this
    rw [utf16Encode_helloText] at this; simpa using this
  rw [stringFromJNI_is_NewStringUTF]
  simp [JNIEnv.NewStringUTF, hz, hd, hl, hc]

/-- C1: in every execution context whose string allocation succeeds, and for
every caller reference, the entry point returns a non-null string reference
whose content is exactly the text "Hello from C++". -/
theorem stringFromJNI_returns_hello (env : JNIEnv) (this : jobject)
    (h : AllocationSucceeds env) :
    ∃ (str : jstring) (post : JNIEnv),
      stringFromJNI env this = some (str, post) ∧ str ≠ jobject.null ∧
      post.stringContent str = some (utf16Encode "Hello from C++") := by
  refine ⟨_, _, stringFromJNI_of_room env this h, by simp, ?_⟩
  show (env.heap ++ [helloBytes])[env.heap.length]? = some (utf16Encode helloText)
  rw [utf16Encode_helloText]
  simp

theorem stringFromJNI_returns_hello_witness :
    AllocationSucceeds roomyEnv ∧
    ∃ (str : jstring) (post : JNIEnv),
      stringFromJNI roomyEnv (jobject.ref 7) = some (str, post) ∧ str ≠ jobject.null ∧
      post.stringContent str = some (utf16Encode "Hello from C++") :=
  ⟨by decide, stringFromJNI_returns_hello roomyEnv (jobject.ref 7) (by decide)⟩

/-- C3: two calls, with any two caller references and in any two contexts in
both of which the allocation succeeds, return strings of equal content; and in
one context the outcome is the same for any two caller references. -/
theorem stringFromJNI_same_content (env₁ env₂ : JNIEnv) (this₁ this₂ : jobject)
    (h₁ : AllocationSucceeds env₁) (h₂ : AllocationSucceeds env₂) :
    (∃ (str₁ str₂ : jstring) (post₁ post₂ : JNIEnv) (content : List Nat),
      stringFromJNI env₁ this₁ = some (str₁, post₁) ∧
      stringFromJNI env₂ this₂ = some (str₂, post₂) ∧
      post₁.stringContent str₁ = some content ∧
      post₂.stringContent str₂ = some content) ∧
    stringFromJNI env₁ this₁ = stringFromJNI env₁ this₂ := by
  refine ⟨⟨_, _, _, _, helloBytes, stringFromJNI_of_room env₁ this₁ h₁,
    stringFromJNI_of_room env₂ this₂ h₂, ?_, ?_⟩, rfl⟩
  · show (env₁.heap ++ [helloBytes])[env₁.heap.length]? = some helloBytes
    simp
  · show (env₂.heap ++ [helloBytes])[env₂.heap.length]? = some helloBytes
    simp

theorem stringFromJNI_same_content_witness :
    AllocationSucceeds roomyEnv ∧ AllocationSucceeds tightEnv ∧
    (∃ (str₁ str₂ : jstring) (post₁ post₂ : JNIEnv) (content : List Nat),
      stringFromJNI roomyEnv (jobject.ref 7) = some (str₁, post₁) ∧
      stringFromJNI tightEnv jobject.null = some (str₂, post₂) ∧
      post₁.stringContent str₁ = some content ∧
      post₂.stringContent str₂ = some content) ∧
    stringFromJNI roomyEnv (jobject.ref 7) = stringFromJNI roomyEnv jobject.null :=
  ⟨by decide, by decide,
    stringFromJNI_same_content roomyEnv tightEnv (jobject.ref 7) jobject.null
      (by decide) (by decide)⟩

/-- C4, as stated, fails: in a context with room for thirteen code units no
string is allocated (the heap and the free memory are what they were), yet the
state after the call is not the state before it: an `OutOfMemoryError` is
pending that was not pending before. -/
theorem stringFromJNI_failed_allocation_changes_state :
    stringFromJNI fullEnv jobject.null = some (jobject.null, fullEnvAfter) ∧
    fullEnvAfter.heap = fullEnv.heap ∧ fullEnvAfter.freeUnits = fullEnv.freeUnits ∧
    fullEnvAfter.pending ≠ fullEnv.pending ∧
    ¬ DiffersOnlyByNewString fullEnv fullEnvAfter jobject.null := by
  decide

/-- C4, amended: in every context the whole effect of the entry point is that
of exactly one `NewStringUTF` call, the only entry it adds to the call log;
when the allocation succeeds the state after differs from the state before
only by the newly allocated return string; when it fails nothing is allocated
and the one change is the pending `OutOfMemoryError`. -/
theorem stringFromJNI_frame (env : JNIEnv) (this : jobject) :
    stringFromJNI env this = env.NewStringUTF (helloBytes ++ [0]) ∧
    ∃ (str : jstring) (post : JNIEnv),
      stringFromJNI env this = some (str, post) ∧
      post.trace = env.trace ++ [JNICall.NewStringUTF (helloBytes ++ [0])] ∧
      (AllocationSucceeds env → DiffersOnlyByNewString env post str) ∧
      (¬ AllocationSucceeds env →
        str = jobject.null ∧ post.heap = env.heap ∧ post.freeUnits = env.freeUnits ∧
        post.pending = some JThrowable.OutOfMemoryError) := by
  refine ⟨stringFromJNI_is_NewStringUTF env this, ?_⟩
  by_cases h : AllocationSucceeds env
  · refine ⟨_, _, stringFromJNI_of_room env this h, rfl, ?_, fun h' => absurd h h'⟩
    intro _
    have hfree : 14 ≤ env.freeUnits := by
      have hc := h
      unfold AllocationSucceeds at hc
      rw [utf16Encode_helloText] at hc
      simpa [JNIEnv.canAllocate, helloBytes] using hc
    refine ⟨rfl, ?_, ?_, ?_, rfl⟩
    · show (env.heap ++ [helloBytes]).length = env.heap.length + 1
      simp
    · show (env.heap ++ [helloBytes]).take env.heap.length = env.heap
      simp
    · show env.freeUnits - 14 +
        ((env.heap ++ [helloBytes]).drop env.heap.length).flatten.length = env.freeUnits
      simp [helloBytes]
      omega
  · exact ⟨_, _, stringFromJNI_of_no_room env this h, rfl, fun h' => absurd h' h,
      fun _ => ⟨rfl, rfl, rfl, rfl⟩⟩

theorem stringFromJNI_frame_witness :
    AllocationSucceeds roomyEnv ∧
    ∃ (str : jstring) (post : JNIEnv),
      stringFromJNI roomyEnv (jobject.ref 7) = some (str, post) ∧
      post.trace = [JNICall.NewStringUTF (helloBytes ++ [0])] ∧
      DiffersOnlyByNewString roomyEnv post str := by
  obtain ⟨_, str, post, hrun, htrace, hok, _⟩ := stringFromJNI_frame roomyEnv (jobject.ref 7)
  have hroom : AllocationSucceeds roomyEnv := by decide
  exact ⟨hroom, str, post, hrun, htrace, hok hroom⟩

/-- C5: the argument of the `NewStringUTF` call is the C string made of the 14
bytes of "Hello from C++" and the terminator; every one of the 14 bytes lies
in `0x01..0x7F`; reading the C string back up to the first zero byte gives all
14 bytes; decoding them as modified UTF-8 and as standard UTF-8 gives the same
text, that of the literal; and a returned string has exactly 14 characters. -/
theorem stringFromJNI_passes_ascii_bytes (env : JNIEnv) (this : jobject) :
    ∃ (str : jstring) (post : JNIEnv),
      stringFromJNI env this = some (str, post) ∧
      post.trace = env.trace ++ [JNICall.NewStringUTF (helloBytes ++ [0])] ∧
      (StdString.ofCStr (stringLiteral "Hello from C++")).c_str = helloBytes ++ [0] ∧
      helloBytes = utf8Encode "Hello from C++" ∧ helloBytes.length = 14 ∧
      (∀ b ∈ helloBytes, 0x01 ≤ b ∧ b ≤ 0x7F) ∧
      cstrBytes (helloBytes ++ [0]) = helloBytes ∧
      decodeModifiedUTF8 helloBytes = (decodeUTF8 helloBytes).map utf16OfCodePoints ∧
      decodeModifiedUTF8 helloBytes = some (utf16Encode "Hello from C++") ∧
      (str ≠ jobject.null →
        ∃ content, post.stringContent str = some content ∧ content.length = 14) := by
  have hbytes : helloBytes = utf8Encode "Hello from C++" := utf8Encode_helloText.symm
  have hlen : helloBytes.length = 14 := rfl
  have hread := cstrBytes_append_zero helloBytes (fun b hb => (helloBytes_ascii b hb).1)
  have hagree := (decode_agree_ascii helloBytes helloBytes_ascii).1
  have htext : decodeModifiedUTF8 helloBytes = some (utf16Encode "Hello from C++") := by
    rw [(decode_agree_ascii helloBytes helloBytes_ascii).2]
    exact congrArg some utf16Encode_helloText.symm
  by_cases h : AllocationSucceeds env
  · refine ⟨_, _, stringFromJNI_of_room env this h, rfl, hello_c_str, hbytes, hlen,
      helloBytes_ascii,
      hread, hagree, htext, fun _ => ⟨helloBytes, ?_, hlen⟩⟩
    show (env.heap ++ [helloBytes])[env.heap.length]? = some helloBytes
    simp
  · exact ⟨_, _, stringFromJNI_of_no_room env this h, rfl, hello_c_str, hbytes, hlen,
      helloBytes_ascii,
      hread, hagree, htext, fun hn => absurd rfl hn⟩

theorem stringFromJNI_passes_ascii_bytes_witness :
    ∃ (str : jstring) (post : JNIEnv),
      stringFromJNI tightEnv (jobject.ref 3) = some (str, post) ∧ str = jobject.ref 0 ∧
      ∃ content, post.stringContent str = some content ∧ content.length = 14 := by
  obtain ⟨str, post, hrun, _, _, _, _, _, _, _, _, hret⟩ :=
    stringFromJNI_passes_ascii_bytes tightEnv (jobject.ref 3)
  have heval : (stringFromJNI tightEnv (jobject.ref 3)).map Prod.fst = some (jobject.ref 0) := by
    decide
  have hstr : str = jobject.ref 0 := by
    rw [hrun] at heval
    exact Option.some.inj heval
  exact ⟨str, post, hrun, hstr, hret (by rw [hstr]; exact jobject.noConfusion)⟩

end EsCompression
